import Mathlib

/-!
Verification of the `avmetadata` metadata projector against its design
specification.  The Rust source (`src/lib.rs`) is shallowly embedded below:
the external demuxing library's handle (`Input` in the source) becomes a pure
record of everything the projector queries; `Metadata::new` becomes a total
Lean function into `Except Err Metadata`, with the `?`-propagation of
`ffmpeg::Result` modelled by the `Except` monad and the short-circuiting
`collect::<Result<Vec<_>>>()` modelled by an explicit ordered traversal.
Scalar types belonging to the external library (`Rational`, `Disposition`,
`Discard`, `codec::Id`, sample/pixel formats, colour enums) are opaque to the
projector; they are embedded as integers or pairs of integers, which preserves
everything the projector does with them (verbatim copying).
-/

namespace AvMetadata

/-- Embedding of `ffmpeg::Error` as used by the projector: `Error::Bug` is
raised when a codec identity cannot be resolved; every other library error
(for instance a decoder view that cannot be opened) is an opaque code. -/
inductive Err where
  | bug : Err
  | other : Int → Err
  deriving DecidableEq

/-- Embedding of `ffmpeg::Rational` (a pair of integers, opaque to the
projector). -/
structure Rational where
  num : Int
  den : Int
  deriving DecidableEq

/-- Embedding of `ffmpeg::media::Type`, the closed media-kind enumeration the
source matches on exhaustively. -/
inductive MediaType where
  | unknown : MediaType
  | audio : MediaType
  | video : MediaType
  | data : MediaType
  | subtitle : MediaType
  | attachment : MediaType
  deriving DecidableEq

/-! ## The snapshot data model (the `Metadata` value built by the projector) -/

/-- Embedding of `Codec` from the source: `id`, `name`, `description`. -/
structure Codec where
  id : Nat
  name : String
  description : String
  deriving DecidableEq

/-- Embedding of the `Audio` content payload from the source. -/
structure Audio where
  codec : Codec
  bit_rate : Nat
  max_bit_rate : Nat
  delay : Nat
  sample_rate : Nat
  channels : Nat
  format : Nat
  frames : Nat
  align : Nat
  channel_layout : Nat
  frame_start : Option Nat
  deriving DecidableEq

/-- Embedding of the `Video` content payload from the source. -/
structure Video where
  codec : Codec
  bit_rate : Nat
  max_bit_rate : Nat
  delay : Nat
  width : Nat
  height : Nat
  format : Nat
  has_b_frames : Bool
  aspect_ratio : Rational
  color_space : Nat
  color_range : Nat
  color_primaries : Nat
  color_transfer_characteristic : Nat
  chroma_location : Nat
  references : Nat
  intra_dc_precision : Nat
  deriving DecidableEq

/-- Embedding of the `Subtitle` content payload from the source. -/
structure Subtitle where
  codec : Codec
  deriving DecidableEq

/-- Embedding of the kind-tagged `Content` enum from the source; the
`Unknown`, `Data` and `Attachment` payloads are unit structs in the source,
so they become nullary constructors here. -/
inductive Content where
  | unknown : Content
  | audio : Audio → Content
  | video : Video → Content
  | data : Content
  | subtitle : Subtitle → Content
  | attachment : Content
  deriving DecidableEq

/-- Embedding of `Stream` from the source (one projected elementary stream). -/
structure Stream where
  index : Nat
  time_base : Rational
  start_time : Option Int
  duration : Option Int
  frames : Int
  disposition : Int
  discard : Int
  frame_rate : Rational
  avg_frame_rate : Rational
  content : Content
  deriving DecidableEq

/-- Embedding of `Format` from the source (container descriptor). -/
structure Format where
  name : String
  aliases : List String
  description : String
  extensions : List String
  mime_types : List String
  deriving DecidableEq

/-- Embedding of `Best` from the source (optional best-stream index per
media kind). -/
structure Best where
  audio : Option Nat
  video : Option Nat
  subtitle : Option Nat
  deriving DecidableEq

/-- Embedding of the top-level `Metadata` snapshot.  The source's
`HashMap<String, String>` for `details` is embedded as an association list
with unique keys, built by the same insert-with-overwrite discipline as
`HashMap::insert` (see `collectTags`). -/
structure Metadata where
  format : Format
  best : Best
  streams : List Stream
  details : List (String × String)
  deriving DecidableEq

/-! ## The handle model (what the projector queries from the collaborator) -/

/-- A codec-registry entry as returned by the decoder view's `.codec()`
query (`None` when the codec identity cannot be resolved). -/
structure CodecDesc where
  id : Nat
  name : String
  description : String
  deriving DecidableEq

/-- The audio decoder view (`stream.codec().decoder().audio()` result):
every getter the source reads from it. -/
structure AudioView where
  codec : Option CodecDesc
  bit_rate : Nat
  max_bit_rate : Nat
  delay : Nat
  sample_rate : Nat
  channels : Nat
  format : Nat
  frames : Nat
  align : Nat
  channel_layout : Nat
  frame_start : Option Nat
  deriving DecidableEq

/-- The video decoder view (`stream.codec().decoder().video()` result). -/
structure VideoView where
  codec : Option CodecDesc
  bit_rate : Nat
  max_bit_rate : Nat
  delay : Nat
  width : Nat
  height : Nat
  format : Nat
  has_b_frames : Bool
  aspect_ratio : Rational
  color_space : Nat
  color_range : Nat
  color_primaries : Nat
  color_transfer_characteristic : Nat
  chroma_location : Nat
  references : Nat
  intra_dc_precision : Nat
  deriving DecidableEq

/-- The subtitle decoder view (`stream.codec().decoder().subtitle()`
result). -/
structure SubtitleView where
  codec : Option CodecDesc
  deriving DecidableEq

deriving instance DecidableEq for Except

/-- One stream handle of the container: the generic per-stream getters the
source reads, the stream's media kind, and the (fallible) decoder views the
source opens in the kind-specific branches. -/
structure StreamHandle where
  index : Nat
  time_base : Rational
  start_time : Option Int
  duration : Option Int
  frames : Int
  disposition : Int
  discard : Int
  frame_rate : Rational
  avg_frame_rate : Rational
  medium : MediaType
  audioDecoder : Except Err AudioView
  videoDecoder : Except Err VideoView
  subtitleDecoder : Except Err SubtitleView
  deriving DecidableEq

/-- The format handle (`format::context::Input`): every query the projector
performs against it.  `bestVideo`/`bestAudio`/`bestSubtitle` are the
collaborator's opaque best-stream choices (`input.streams().best(kind)`),
returned as stream handles whose `.index()` the source records;
`metadataTags` is the container tag dictionary in iteration order. -/
structure Input where
  formatName : String
  formatDescription : String
  formatExtensions : List String
  formatMimeTypes : List String
  streams : List StreamHandle
  bestVideo : Option StreamHandle
  bestAudio : Option StreamHandle
  bestSubtitle : Option StreamHandle
  metadataTags : List (String × String)
  deriving DecidableEq

/-! ## Library primitives used by the projector -/

/-- Embedding of Rust's `str::split(',')` iterator, collected to a list:
the separators partition the character sequence, an empty input yields one
empty token, and adjacent separators yield empty tokens. -/
def splitComma : List Char → List (List Char)
  | [] => [[]]
  | c :: rest =>
    if c = ',' then [] :: splitComma rest
    else
      match splitComma rest with
      | [] => [[c]]
      | t :: ts => (c :: t) :: ts

/-- Embedding of `Option::ok_or`. -/
def okOr : Option α → Err → Except Err α
  | some a, _ => .ok a
  | none, e => .error e

/-- Embedding of `Iterator::map(f).collect::<Result<Vec<_>, _>>()`: an
ordered traversal that short-circuits at the first error. -/
def mapE (f : α → Except Err β) : List α → Except Err (List β)
  | [] => .ok []
  | a :: rest =>
    match f a with
    | .error e => .error e
    | .ok b =>
      match mapE f rest with
      | .error e => .error e
      | .ok bs => .ok (b :: bs)

/-- One `HashMap::insert`: overwrite the value when the key is present,
append the pair otherwise. -/
def insertKV (m : List (String × String)) (k v : String) : List (String × String) :=
  if m.any (fun p => p.1 = k) then
    m.map (fun p => if p.1 = k then (k, v) else p)
  else
    m ++ [(k, v)]

/-- Embedding of collecting an iterator of pairs into a `HashMap`: insert
every pair in iteration order, later occurrences of a key overwriting
earlier ones. -/
def collectTags (tags : List (String × String)) : List (String × String) :=
  tags.foldl (fun m p => insertKV m p.1 p.2) []

/-- Observing the map: the value bound to a key, if any. -/
def lookupKV : List (String × String) → String → Option String
  | [], _ => none
  | p :: rest, k => if p.1 = k then some p.2 else lookupKV rest k

/-- Specification-side description of "duplicate keys overwrite, keeping the
last value": the value of the last pair with the given key in the raw tag
sequence. -/
def lastTagValue : List (String × String) → String → Option String
  | [], _ => none
  | p :: rest, k =>
    match lastTagValue rest k with
    | some v => some v
    | none => if p.1 = k then some p.2 else none

/-! ## The projector (`Metadata::new` from the source) -/

/-- The container-descriptor part of `Metadata::new`: the raw format name is
split on `,`, the first token becoming `name` (the source unwraps the first
token of the split iterator, which always exists, see `splitComma_ne_nil`)
and the remaining tokens `aliases`. -/
def formatOf (input : Input) : Format :=
  { name := ((splitComma input.formatName.toList).headD []).asString
  , aliases := ((splitComma input.formatName.toList).drop 1).map List.asString
  , description := input.formatDescription
  , extensions := input.formatExtensions
  , mime_types := input.formatMimeTypes }

/-- The best-stream part of `Metadata::new`: the index of each collaborator
choice is recorded verbatim when a choice exists. -/
def bestOf (input : Input) : Best :=
  { video := input.bestVideo.map StreamHandle.index
  , audio := input.bestAudio.map StreamHandle.index
  , subtitle := input.bestSubtitle.map StreamHandle.index }

/-- The kind-specific extraction branch of `Metadata::new`: matches the
stream's media kind; `Unknown`/`Data`/`Attachment` yield their empty content
variants, while `Audio`/`Video`/`Subtitle` open the decoder view (`?`) and
resolve the codec identity (`.codec().ok_or(Error::Bug)?`, three separate
calls in the source for id, name and description). -/
def extractContent (s : StreamHandle) : Except Err Content :=
  match s.medium with
  | .unknown => .ok .unknown
  | .audio => do
    let audio ← s.audioDecoder
    let c1 ← okOr audio.codec Err.bug
    let c2 ← okOr audio.codec Err.bug
    let c3 ← okOr audio.codec Err.bug
    .ok (.audio
      { codec := { id := c1.id, name := c2.name, description := c3.description }
      , bit_rate := audio.bit_rate
      , max_bit_rate := audio.max_bit_rate
      , delay := audio.delay
      , sample_rate := audio.sample_rate
      , channels := audio.channels
      , format := audio.format
      , frames := audio.frames
      , align := audio.align
      , channel_layout := audio.channel_layout
      , frame_start := audio.frame_start })
  | .video => do
    let video ← s.videoDecoder
    let c1 ← okOr video.codec Err.bug
    let c2 ← okOr video.codec Err.bug
    let c3 ← okOr video.codec Err.bug
    .ok (.video
      { codec := { id := c1.id, name := c2.name, description := c3.description }
      , bit_rate := video.bit_rate
      , max_bit_rate := video.max_bit_rate
      , delay := video.delay
      , width := video.width
      , height := video.height
      , format := video.format
      , has_b_frames := video.has_b_frames
      , aspect_ratio := video.aspect_ratio
      , color_space := video.color_space
      , color_range := video.color_range
      , color_primaries := video.color_primaries
      , color_transfer_characteristic := video.color_transfer_characteristic
      , chroma_location := video.chroma_location
      , references := video.references
      , intra_dc_precision := video.intra_dc_precision })
  | .data => .ok .data
  | .subtitle => do
    let sub ← s.subtitleDecoder
    let c1 ← okOr sub.codec Err.bug
    let c2 ← okOr sub.codec Err.bug
    let c3 ← okOr sub.codec Err.bug
    .ok (.subtitle
      { codec := { id := c1.id, name := c2.name, description := c3.description } })
  | .attachment => .ok .attachment

/-- The per-stream closure of `Metadata::new`: kind-specific extraction
followed by the generic per-stream fields, copied verbatim from the
handle. -/
def projectStream (s : StreamHandle) : Except Err Stream := do
  let content ← extractContent s
  .ok
    { index := s.index
    , time_base := s.time_base
    , start_time := s.start_time
    , duration := s.duration
    , frames := s.frames
    , disposition := s.disposition
    , discard := s.discard
    , frame_rate := s.frame_rate
    , avg_frame_rate := s.avg_frame_rate
    , content := content }

/-- Embedding of `Metadata::new`: container descriptor, best-stream indices,
short-circuiting traversal of the streams (the `?` on
`collect::<ffmpeg::Result<Vec<_>>>()`), container tags, assembly. -/
def Metadata.new (input : Input) : Except Err Metadata := do
  let format := formatOf input
  let best := bestOf input
  let streams ← mapE projectStream input.streams
  let details := collectTags input.metadataTags
  .ok { format := format, best := best, streams := streams, details := details }

/-! ## State-threaded projection

The source takes the handle by shared reference (`&Input`) and every
collaborator call is a `&self` accessor, so none of them can mutate the
handle and the handle survives the call.  To make that observable, each
accessor is embedded as a state transformer on the handle — returning its
result together with the handle state after the call, which for a `&self`
accessor is the state it was given — and `Metadata.newST` threads the handle
through every call in the source's evaluation order, returning the final
handle state alongside the result. -/

def formatNameQ (i : Input) : String × Input := (i.formatName, i)

def formatDescriptionQ (i : Input) : String × Input := (i.formatDescription, i)

def formatExtensionsQ (i : Input) : List String × Input := (i.formatExtensions, i)

def formatMimeTypesQ (i : Input) : List String × Input := (i.formatMimeTypes, i)

def bestVideoQ (i : Input) : Option StreamHandle × Input := (i.bestVideo, i)

def bestAudioQ (i : Input) : Option StreamHandle × Input := (i.bestAudio, i)

def bestSubtitleQ (i : Input) : Option StreamHandle × Input := (i.bestSubtitle, i)

def streamsQ (i : Input) : List StreamHandle × Input := (i.streams, i)

def metadataQ (i : Input) : List (String × String) × Input := (i.metadataTags, i)

/-- `Metadata::new` with the handle state threaded through every
collaborator call, in the source's evaluation order (the raw format name is
queried twice, once for `name` and once for `aliases`; the container tags
are only queried after the stream traversal succeeds). -/
def Metadata.newST (i0 : Input) : Except Err Metadata × Input :=
  let (n1, i1) := formatNameQ i0
  let (n2, i2) := formatNameQ i1
  let (fd, i3) := formatDescriptionQ i2
  let (fe, i4) := formatExtensionsQ i3
  let (fm, i5) := formatMimeTypesQ i4
  let format : Format :=
    { name := ((splitComma n1.toList).headD []).asString
    , aliases := ((splitComma n2.toList).drop 1).map List.asString
    , description := fd
    , extensions := fe
    , mime_types := fm }
  let (bv, i6) := bestVideoQ i5
  let (ba, i7) := bestAudioQ i6
  let (bs, i8) := bestSubtitleQ i7
  let best : Best :=
    { video := bv.map StreamHandle.index
    , audio := ba.map StreamHandle.index
    , subtitle := bs.map StreamHandle.index }
  let (shs, i9) := streamsQ i8
  match mapE projectStream shs with
  | .error e => (.error e, i9)
  | .ok sts =>
    let (tags, i10) := metadataQ i9
    (.ok { format := format, best := best, streams := sts, details := collectTags tags }, i10)

/-! ## Serialization model

The snapshot types derive `Serialize`/`Deserialize` (serde), with the
`Content` enum externally tagged under kebab-case variant names.  The target
is any self-describing, field-tagged format; its value space is modelled by
`Sval`: structs and maps become tagged field lists, sequences become arrays,
options become an explicit absent/present marker (serde's
`serialize_none`/`serialize_some` — absence is a distinct marker, never a
numeric sentinel), unit payloads become `unit`.  The decoders check every
field tag and every variant tag structurally and reject anything else. -/

inductive Sval where
  | str : String → Sval
  | int : Int → Sval
  | nat : Nat → Sval
  | bool : Bool → Sval
  | unit : Sval
  | snone : Sval
  | ssome : Sval → Sval
  | arr : List Sval → Sval
  | obj : List (String × Sval) → Sval

def encodeOptNat : Option Nat → Sval
  | none => .snone
  | some n => .ssome (.nat n)

def decodeOptNat : Sval → Option (Option Nat)
  | .snone => some none
  | .ssome (.nat n) => some (some n)
  | _ => none

def encodeOptInt : Option Int → Sval
  | none => .snone
  | some n => .ssome (.int n)

def decodeOptInt : Sval → Option (Option Int)
  | .snone => some none
  | .ssome (.int n) => some (some n)
  | _ => none

/-- `Rational` is a two-field tuple struct in the library; it serializes as
a two-element sequence. -/
def encodeRational (r : Rational) : Sval :=
  .arr [.int r.num, .int r.den]

def decodeRational : Sval → Option Rational
  | .arr [.int a, .int b] => some { num := a, den := b }
  | _ => none

def encodeCodec (c : Codec) : Sval :=
  .obj [("id", .nat c.id), ("name", .str c.name), ("description", .str c.description)]

def decodeCodec : Sval → Option Codec
  | .obj [("id", .nat i), ("name", .str n), ("description", .str d)] =>
    some { id := i, name := n, description := d }
  | _ => none

def encodeAudio (a : Audio) : Sval :=
  .obj
    [ ("codec", encodeCodec a.codec)
    , ("bit_rate", .nat a.bit_rate)
    , ("max_bit_rate", .nat a.max_bit_rate)
    , ("delay", .nat a.delay)
    , ("sample_rate", .nat a.sample_rate)
    , ("channels", .nat a.channels)
    , ("format", .nat a.format)
    , ("frames", .nat a.frames)
    , ("align", .nat a.align)
    , ("channel_layout", .nat a.channel_layout)
    , ("frame_start", encodeOptNat a.frame_start) ]

def decodeAudio : Sval → Option Audio
  | .obj
      [ ("codec", cv)
      , ("bit_rate", .nat br)
      , ("max_bit_rate", .nat mbr)
      , ("delay", .nat de)
      , ("sample_rate", .nat sr)
      , ("channels", .nat ch)
      , ("format", .nat fo)
      , ("frames", .nat fr)
      , ("align", .nat al)
      , ("channel_layout", .nat cl)
      , ("frame_start", fsv) ] => do
    let codec ← decodeCodec cv
    let fs ← decodeOptNat fsv
    some
      { codec := codec, bit_rate := br, max_bit_rate := mbr, delay := de
      , sample_rate := sr, channels := ch, format := fo, frames := fr
      , align := al, channel_layout := cl, frame_start := fs }
  | _ => none

def encodeVideo (v : Video) : Sval :=
  .obj
    [ ("codec", encodeCodec v.codec)
    , ("bit_rate", .nat v.bit_rate)
    , ("max_bit_rate", .nat v.max_bit_rate)
    , ("delay", .nat v.delay)
    , ("width", .nat v.width)
    , ("height", .nat v.height)
    , ("format", .nat v.format)
    , ("has_b_frames", .bool v.has_b_frames)
    , ("aspect_ratio", encodeRational v.aspect_ratio)
    , ("color_space", .nat v.color_space)
    , ("color_range", .nat v.color_range)
    , ("color_primaries", .nat v.color_primaries)
    , ("color_transfer_characteristic", .nat v.color_transfer_characteristic)
    , ("chroma_location", .nat v.chroma_location)
    , ("references", .nat v.references)
    , ("intra_dc_precision", .nat v.intra_dc_precision) ]

def decodeVideo : Sval → Option Video
  | .obj
      [ ("codec", cv)
      , ("bit_rate", .nat br)
      , ("max_bit_rate", .nat mbr)
      , ("delay", .nat de)
      , ("width", .nat w)
      , ("height", .nat h)
      , ("format", .nat fo)
      , ("has_b_frames", .bool bf)
      , ("aspect_ratio", ar)
      , ("color_space", .nat cs)
      , ("color_range", .nat cr)
      , ("color_primaries", .nat cp)
      , ("color_transfer_characteristic", .nat ct)
      , ("chroma_location", .nat cl)
      , ("references", .nat re)
      , ("intra_dc_precision", .nat ip) ] => do
    let codec ← decodeCodec cv
    let ratio ← decodeRational ar
    some
      { codec := codec, bit_rate := br, max_bit_rate := mbr, delay := de
      , width := w, height := h, format := fo, has_b_frames := bf
      , aspect_ratio := ratio, color_space := cs, color_range := cr
      , color_primaries := cp, color_transfer_characteristic := ct
      , chroma_location := cl, references := re, intra_dc_precision := ip }
  | _ => none

def encodeSubtitle (s : Subtitle) : Sval :=
  .obj [("codec", encodeCodec s.codec)]

def decodeSubtitle : Sval → Option Subtitle
  | .obj [("codec", cv)] => (decodeCodec cv).map (fun c => { codec := c })
  | _ => none

/-- Externally tagged `Content`, kebab-case variant names
(`#[serde(rename_all = "kebab-case")]`); the unit payloads
`Unknown`/`Data`/`Attachment` serialize as unit. -/
def encodeContent : Content → Sval
  | .unknown => .obj [("unknown", .unit)]
  | .audio a => .obj [("audio", encodeAudio a)]
  | .video v => .obj [("video", encodeVideo v)]
  | .data => .obj [("data", .unit)]
  | .subtitle s => .obj [("subtitle", encodeSubtitle s)]
  | .attachment => .obj [("attachment", .unit)]

def decodeContent : Sval → Option Content
  | .obj [("unknown", .unit)] => some .unknown
  | .obj [("audio", av)] => (decodeAudio av).map Content.audio
  | .obj [("video", vv)] => (decodeVideo vv).map Content.video
  | .obj [("data", .unit)] => some .data
  | .obj [("subtitle", sv)] => (decodeSubtitle sv).map Content.subtitle
  | .obj [("attachment", .unit)] => some .attachment
  | _ => none

def encodeStream (st : Stream) : Sval :=
  .obj
    [ ("index", .nat st.index)
    , ("time_base", encodeRational st.time_base)
    , ("start_time", encodeOptInt st.start_time)
    , ("duration", encodeOptInt st.duration)
    , ("frames", .int st.frames)
    , ("disposition", .int st.disposition)
    , ("discard", .int st.discard)
    , ("frame_rate", encodeRational st.frame_rate)
    , ("avg_frame_rate", encodeRational st.avg_frame_rate)
    , ("content", encodeContent st.content) ]

def decodeStream : Sval → Option Stream
  | .obj
      [ ("index", .nat ix)
      , ("time_base", tb)
      , ("start_time", stv)
      , ("duration", duv)
      , ("frames", .int fr)
      , ("disposition", .int di)
      , ("discard", .int dc)
      , ("frame_rate", frv)
      , ("avg_frame_rate", afv)
      , ("content", cov) ] => do
    let timeBase ← decodeRational tb
    let startTime ← decodeOptInt stv
    let dur ← decodeOptInt duv
    let frameRate ← decodeRational frv
    let avgFrameRate ← decodeRational afv
    let content ← decodeContent cov
    some
      { index := ix, time_base := timeBase, start_time := startTime
      , duration := dur, frames := fr, disposition := di, discard := dc
      , frame_rate := frameRate, avg_frame_rate := avgFrameRate
      , content := content }
  | _ => none

def decodeStreams : List Sval → Option (List Stream)
  | [] => some []
  | v :: vs => do
    let st ← decodeStream v
    let rest ← decodeStreams vs
    some (st :: rest)

def decodeStrs : List Sval → Option (List String)
  | [] => some []
  | .str s :: vs => (decodeStrs vs).map (fun l => s :: l)
  | _ => none

def decodePairs : List (String × Sval) → Option (List (String × String))
  | [] => some []
  | (k, .str v) :: ps => (decodePairs ps).map (fun l => (k, v) :: l)
  | _ => none

def encodeFormat (f : Format) : Sval :=
  .obj
    [ ("name", .str f.name)
    , ("aliases", .arr (f.aliases.map Sval.str))
    , ("description", .str f.description)
    , ("extensions", .arr (f.extensions.map Sval.str))
    , ("mime_types", .arr (f.mime_types.map Sval.str)) ]

def decodeFormat : Sval → Option Format
  | .obj
      [ ("name", .str n)
      , ("aliases", .arr av)
      , ("description", .str d)
      , ("extensions", .arr ev)
      , ("mime_types", .arr mv) ] => do
    let aliases ← decodeStrs av
    let extensions ← decodeStrs ev
    let mimeTypes ← decodeStrs mv
    some
      { name := n, aliases := aliases, description := d
      , extensions := extensions, mime_types := mimeTypes }
  | _ => none

def encodeBest (b : Best) : Sval :=
  .obj
    [ ("audio", encodeOptNat b.audio)
    , ("video", encodeOptNat b.video)
    , ("subtitle", encodeOptNat b.subtitle) ]

def decodeBest : Sval → Option Best
  | .obj [("audio", av), ("video", vv), ("subtitle", sv)] => do
    let a ← decodeOptNat av
    let v ← decodeOptNat vv
    let s ← decodeOptNat sv
    some { audio := a, video := v, subtitle := s }
  | _ => none

def encodeMetadata (m : Metadata) : Sval :=
  .obj
    [ ("format", encodeFormat m.format)
    , ("best", encodeBest m.best)
    , ("streams", .arr (m.streams.map encodeStream))
    , ("details", .obj (m.details.map (fun p => (p.1, Sval.str p.2)))) ]

def decodeMetadata : Sval → Option Metadata
  | .obj [("format", fv), ("best", bv), ("streams", .arr sv), ("details", .obj dv)] => do
    let format ← decodeFormat fv
    let best ← decodeBest bv
    let streams ← decodeStreams sv
    let details ← decodePairs dv
    some { format := format, best := best, streams := streams, details := details }
  | _ => none

/-! ## Derived notions used in the statements -/

/-- The generic per-stream fields of `projectStream`, with a given content
payload: exactly the record built by the per-stream closure of the source. -/
def genericStream (s : StreamHandle) (c : Content) : Stream :=
  { index := s.index
  , time_base := s.time_base
  , start_time := s.start_time
  , duration := s.duration
  , frames := s.frames
  , disposition := s.disposition
  , discard := s.discard
  , frame_rate := s.frame_rate
  , avg_frame_rate := s.avg_frame_rate
  , content := c }

/-- The media kind a content payload is tagged with. -/
def contentKind : Content → MediaType
  | .unknown => .unknown
  | .audio _ => .audio
  | .video _ => .video
  | .data => .data
  | .subtitle _ => .subtitle
  | .attachment => .attachment

/-! ## Concrete sample handles (used to instantiate the theorems) -/

def sampleAudioCodec : CodecDesc := { id := 86018, name := "aac", description := "AAC" }

def sampleAudioView : AudioView :=
  { codec := some sampleAudioCodec, bit_rate := 128000, max_bit_rate := 0
  , delay := 0, sample_rate := 44100, channels := 2, format := 8, frames := 0
  , align := 0, channel_layout := 3, frame_start := none }

def sampleVideoView : VideoView :=
  { codec := some { id := 27, name := "h264", description := "H.264" }
  , bit_rate := 0, max_bit_rate := 0, delay := 0, width := 1920, height := 1080
  , format := 0, has_b_frames := true, aspect_ratio := { num := 16, den := 9 }
  , color_space := 1, color_range := 1, color_primaries := 1
  , color_transfer_characteristic := 1, chroma_location := 1, references := 1
  , intra_dc_precision := 0 }

def sampleSubtitleView : SubtitleView :=
  { codec := some { id := 94208, name := "subrip", description := "SubRip" } }

/-- A stream handle with the given reported index and media kind, and
well-behaved decoder views. -/
def baseStream (idx : Nat) (m : MediaType) : StreamHandle :=
  { index := idx, time_base := { num := 1, den := 90000 }, start_time := none
  , duration := some 1000, frames := 0, disposition := 0, discard := 0
  , frame_rate := { num := 25, den := 1 }, avg_frame_rate := { num := 25, den := 1 }
  , medium := m, audioDecoder := .ok sampleAudioView
  , videoDecoder := .ok sampleVideoView, subtitleDecoder := .ok sampleSubtitleView }

def baseInput : Input :=
  { formatName := "avi", formatDescription := "AVI", formatExtensions := ["avi"]
  , formatMimeTypes := [], streams := [], bestVideo := none, bestAudio := none
  , bestSubtitle := none, metadataTags := [] }

def baseFormat : Format :=
  { name := "avi", aliases := [], description := "AVI", extensions := ["avi"]
  , mime_types := [] }

def noBest : Best := { audio := none, video := none, subtitle := none }

/-- An audio stream whose decoder view cannot be opened. -/
def failStream : StreamHandle :=
  { baseStream 0 .audio with audioDecoder := .error (Err.other 5) }

def failInput : Input := { baseInput with streams := [failStream] }

/-- A handle whose collaborator claims a best video stream with index `7`
while the container enumerates no streams at all. -/
def badInput : Input := { baseInput with bestVideo := some (baseStream 7 .video) }

def badMeta : Metadata :=
  { format := baseFormat
  , best := { audio := none, video := some 7, subtitle := none }
  , streams := [], details := [] }

/-- A handle with a single stream whose reported index (5) differs from its
position in the enumeration (0). -/
def idxInput : Input := { baseInput with streams := [baseStream 5 .unknown] }

def idxMeta : Metadata :=
  { format := baseFormat, best := noBest
  , streams := [genericStream (baseStream 5 .unknown) .unknown], details := [] }

/-- A handle enumerating only Unknown/Data/Attachment streams. -/
def benignInput : Input :=
  { baseInput with
      streams := [baseStream 0 .unknown, baseStream 1 .data, baseStream 2 .attachment] }

def benignMeta : Metadata :=
  { format := baseFormat, best := noBest
  , streams :=
      [ genericStream (baseStream 0 .unknown) .unknown
      , genericStream (baseStream 1 .data) .data
      , genericStream (baseStream 2 .attachment) .attachment ]
  , details := [] }

def mp4Input : Input := { baseInput with formatName := "mp4,mov,m4a" }

def mp4Meta : Metadata :=
  { format :=
      { name := "mp4", aliases := ["mov", "m4a"], description := "AVI"
      , extensions := ["avi"], mime_types := [] }
  , best := noBest, streams := [], details := [] }

/-- A handle whose best audio stream is the (only) enumerated audio
stream. -/
def goodAudioStream : StreamHandle := baseStream 0 .audio

def goodInput : Input :=
  { baseInput with streams := [goodAudioStream], bestAudio := some goodAudioStream }

def goodAudio : Audio :=
  { codec := { id := 86018, name := "aac", description := "AAC" }
  , bit_rate := 128000, max_bit_rate := 0, delay := 0, sample_rate := 44100
  , channels := 2, format := 8, frames := 0, align := 0, channel_layout := 3
  , frame_start := none }

def goodMeta : Metadata :=
  { format := baseFormat
  , best := { audio := some 0, video := none, subtitle := none }
  , streams := [genericStream goodAudioStream (.audio goodAudio)], details := [] }

/-- A handle whose tag sequence binds the key "title" twice. -/
def dupInput : Input :=
  { baseInput with metadataTags := [("title", "A"), ("title", "B")] }

def dupMeta : Metadata :=
  { format := baseFormat, best := noBest, streams := []
  , details := [("title", "B")] }

/-! ## Helper lemmas -/

theorem asString_toList (s : String) : s.toList.asString = s := by
  cases s
  rfl

theorem splitComma_ne_nil (l : List Char) : splitComma l ≠ [] := by
  induction l with
  | nil => simp [splitComma]
  | cons c rest ih =>
    simp only [splitComma]
    split
    · simp
    · cases h : splitComma rest with
      | nil => exact absurd h ih
      | cons t ts => simp

theorem splitComma_no_comma (l : List Char) (h : ',' ∉ l) : splitComma l = [l] := by
  induction l with
  | nil => rfl
  | cons c rest ih =>
    have hc : ¬ c = ',' := fun hc => h (hc ▸ List.mem_cons_self c rest)
    have hrest : ',' ∉ rest := fun hm => h (List.mem_cons_of_mem c hm)
    simp only [splitComma, if_neg hc, ih hrest]

theorem mapE_error_of_mem (f : α → Except Err β) (l : List α) (a : α) (e : Err)
    (ha : a ∈ l) (hf : f a = .error e) : ∃ e2, mapE f l = .error e2 := by
  induction l with
  | nil => cases ha
  | cons x rest ih =>
    rcases List.mem_cons.mp ha with h | h
    · subst h
      exact ⟨e, by simp [mapE, hf]⟩
    · cases hx : f x with
      | error e3 => exact ⟨e3, by simp [mapE, hx]⟩
      | ok b =>
        obtain ⟨e2, h2⟩ := ih h
        exact ⟨e2, by simp [mapE, hx, h2]⟩

theorem mapE_ok_length (f : α → Except Err β) (l : List α) (l2 : List β)
    (h : mapE f l = .ok l2) : l2.length = l.length := by
  induction l generalizing l2 with
  | nil =>
    simp only [mapE] at h
    cases h
    rfl
  | cons x rest ih =>
    simp only [mapE] at h
    cases hx : f x with
    | error e => rw [hx] at h; cases h
    | ok b =>
      rw [hx] at h
      cases hr : mapE f rest with
      | error e => rw [hr] at h; cases h
      | ok bs =>
        rw [hr] at h
        cases h
        simp [ih bs hr]

theorem mapE_ok_get (f : α → Except Err β) (l : List α) (l2 : List β)
    (h : mapE f l = .ok l2) (i : Nat) (hi : i < l.length) (hi2 : i < l2.length) :
    f (l.get ⟨i, hi⟩) = .ok (l2.get ⟨i, hi2⟩) := by
  induction l generalizing l2 i with
  | nil => cases hi
  | cons x rest ih =>
    simp only [mapE] at h
    cases hx : f x with
    | error e => rw [hx] at h; cases h
    | ok b =>
      rw [hx] at h
      cases hr : mapE f rest with
      | error e => rw [hr] at h; cases h
      | ok bs =>
        rw [hr] at h
        cases h
        cases i with
        | zero => simpa using hx
        | succ n =>
          exact ih bs hr n (Nat.lt_of_succ_lt_succ hi) (Nat.lt_of_succ_lt_succ hi2)

theorem mapE_ok_of_all (f : α → Except Err β) (l : List α)
    (h : ∀ a ∈ l, ∃ b, f a = .ok b) : ∃ l2, mapE f l = .ok l2 := by
  induction l with
  | nil => exact ⟨[], rfl⟩
  | cons x rest ih =>
    obtain ⟨b, hb⟩ := h x (List.mem_cons_self x rest)
    obtain ⟨bs, hbs⟩ := ih (fun a ha => h a (List.mem_cons_of_mem x ha))
    exact ⟨b :: bs, by simp [mapE, hb, hbs]⟩

theorem new_ok_iff (input : Input) (m : Metadata) :
    Metadata.new input = .ok m ↔
      ∃ sts, mapE projectStream input.streams = .ok sts ∧
        m = { format := formatOf input, best := bestOf input, streams := sts
            , details := collectTags input.metadataTags } := by
  unfold Metadata.new
  cases h : mapE projectStream input.streams with
  | error e =>
    simp only [bind, Except.bind]
    constructor
    · intro hc; cases hc
    · rintro ⟨sts, hsts, _⟩; cases hsts
  | ok sts =>
    simp only [bind, Except.bind, pure, Except.pure]
    constructor
    · intro hc
      cases hc
      exact ⟨sts, rfl, rfl⟩
    · rintro ⟨sts2, hsts2, hm⟩
      cases hsts2
      rw [hm]

theorem new_error_iff (input : Input) (e : Err) :
    Metadata.new input = .error e ↔ mapE projectStream input.streams = .error e := by
  unfold Metadata.new
  cases h : mapE projectStream input.streams with
  | error e2 =>
    simp only [bind, Except.bind]
    constructor
    · intro hc; cases hc; rfl
    · intro hc; cases hc; rfl
  | ok sts =>
    simp only [bind, Except.bind, pure, Except.pure]
    constructor
    · intro hc; cases hc
    · intro hc; cases hc

theorem projectStream_ok_elim (s : StreamHandle) (st : Stream)
    (h : projectStream s = .ok st) :
    ∃ c, extractContent s = .ok c ∧ st = genericStream s c := by
  unfold projectStream at h
  cases hc : extractContent s with
  | error e =>
    rw [hc] at h
    cases h
  | ok c =>
    rw [hc] at h
    simp only [bind, Except.bind, pure, Except.pure] at h
    cases h
    exact ⟨c, rfl, rfl⟩

theorem projectStream_error_iff (s : StreamHandle) :
    (∃ e, projectStream s = .error e) ↔ (∃ e, extractContent s = .error e) := by
  unfold projectStream
  cases hc : extractContent s with
  | error e =>
    simp only [bind, Except.bind]
    exact ⟨fun _ => ⟨e, rfl⟩, fun _ => ⟨e, rfl⟩⟩
  | ok c =>
    simp only [bind, Except.bind, pure, Except.pure]
    constructor
    · rintro ⟨e, he⟩; cases he
    · rintro ⟨e, he⟩; cases he

theorem extractContent_ok_kind (s : StreamHandle) (c : Content)
    (h : extractContent s = .ok c) : contentKind c = s.medium := by
  cases hm : s.medium
  case unknown =>
    simp only [extractContent, hm] at h
    cases h; rfl
  case data =>
    simp only [extractContent, hm] at h
    cases h; rfl
  case attachment =>
    simp only [extractContent, hm] at h
    cases h; rfl
  case audio =>
    simp only [extractContent, hm] at h
    cases hd : s.audioDecoder with
    | error e =>
      simp only [hd, bind, Except.bind] at h
      cases h
    | ok av =>
      simp only [hd, bind, Except.bind] at h
      cases hk : av.codec with
      | none =>
        simp only [hk, okOr, bind, Except.bind] at h
        cases h
      | some cd =>
        simp only [hk, okOr, bind, Except.bind] at h
        cases h; rfl
  case video =>
    simp only [extractContent, hm] at h
    cases hd : s.videoDecoder with
    | error e =>
      simp only [hd, bind, Except.bind] at h
      cases h
    | ok vv =>
      simp only [hd, bind, Except.bind] at h
      cases hk : vv.codec with
      | none =>
        simp only [hk, okOr, bind, Except.bind] at h
        cases h
      | some cd =>
        simp only [hk, okOr, bind, Except.bind] at h
        cases h; rfl
  case subtitle =>
    simp only [extractContent, hm] at h
    cases hd : s.subtitleDecoder with
    | error e =>
      simp only [hd, bind, Except.bind] at h
      cases h
    | ok sv =>
      simp only [hd, bind, Except.bind] at h
      cases hk : sv.codec with
      | none =>
        simp only [hk, okOr, bind, Except.bind] at h
        cases h
      | some cd =>
        simp only [hk, okOr, bind, Except.bind] at h
        cases h; rfl

theorem lookupKV_overwrite (m : List (String × String)) (k v : String)
    (hany : m.any (fun p => p.1 = k) = true) :
    lookupKV (m.map (fun p => if p.1 = k then (k, v) else p)) k = some v := by
  induction m with
  | nil => simp at hany
  | cons p rest ih =>
    by_cases hp : p.1 = k
    · simp [lookupKV, hp]
    · simp only [List.any_cons, Bool.or_eq_true, decide_eq_true_eq] at hany
      rcases hany with h | h
      · exact absurd h hp
      · simp only [List.map_cons, if_neg hp, lookupKV, if_neg hp]
        exact ih h

theorem lookupKV_append_single (m : List (String × String)) (k v : String)
    (hany : m.any (fun p => p.1 = k) = false) :
    lookupKV (m ++ [(k, v)]) k = some v := by
  induction m with
  | nil => simp [lookupKV]
  | cons p rest ih =>
    simp only [List.any_cons, Bool.or_eq_false_iff, decide_eq_false_iff_not] at hany
    simp only [List.cons_append, lookupKV, if_neg hany.1]
    exact ih (by simpa using hany.2)

theorem lookupKV_insert_self (m : List (String × String)) (k v : String) :
    lookupKV (insertKV m k v) k = some v := by
  unfold insertKV
  split
  case isTrue h => exact lookupKV_overwrite m k v h
  case isFalse h => exact lookupKV_append_single m k v (Bool.eq_false_iff.mpr h)

theorem lookupKV_overwrite_ne (m : List (String × String)) (k v k2 : String)
    (hne : k2 ≠ k) :
    lookupKV (m.map (fun p => if p.1 = k then (k, v) else p)) k2 = lookupKV m k2 := by
  induction m with
  | nil => rfl
  | cons p rest ih =>
    by_cases hp : p.1 = k
    · simp [lookupKV, hp, Ne.symm hne, ih]
    · simp [lookupKV, if_neg hp, ih]

theorem lookupKV_append_ne (m : List (String × String)) (k v k2 : String)
    (hne : k2 ≠ k) :
    lookupKV (m ++ [(k, v)]) k2 = lookupKV m k2 := by
  induction m with
  | nil => simp [lookupKV, Ne.symm hne]
  | cons p rest ih =>
    by_cases hp : p.1 = k2
    · simp [lookupKV, hp]
    · simp [lookupKV, if_neg hp, ih]

theorem lookupKV_insert_ne (m : List (String × String)) (k v k2 : String)
    (hne : k2 ≠ k) :
    lookupKV (insertKV m k v) k2 = lookupKV m k2 := by
  unfold insertKV
  split
  · exact lookupKV_overwrite_ne m k v k2 hne
  · exact lookupKV_append_ne m k v k2 hne

theorem foldl_insert_lookup (tags : List (String × String))
    (m0 : List (String × String)) (k : String) :
    lookupKV (tags.foldl (fun m p => insertKV m p.1 p.2) m0) k =
      match lastTagValue tags k with
      | some v => some v
      | none => lookupKV m0 k := by
  induction tags generalizing m0 with
  | nil => simp [lastTagValue]
  | cons p rest ih =>
    simp only [List.foldl_cons]
    rw [ih (insertKV m0 p.1 p.2)]
    cases hl : lastTagValue rest k with
    | some v => simp [lastTagValue, hl]
    | none =>
      simp only [lastTagValue, hl]
      by_cases hp : p.1 = k
      · rw [if_pos hp, ← hp]
        exact lookupKV_insert_self m0 p.1 p.2
      · rw [if_neg hp]
        exact lookupKV_insert_ne m0 p.1 p.2 k (fun h => hp h.symm)

theorem collectTags_lookup (tags : List (String × String)) (k : String) :
    lookupKV (collectTags tags) k = lastTagValue tags k := by
  unfold collectTags
  rw [foldl_insert_lookup]
  cases lastTagValue tags k <;> simp [lookupKV]

theorem map_overwrite_keys (m : List (String × String)) (k v : String) :
    (m.map (fun p => if p.1 = k then (k, v) else p)).map (fun p => p.1) =
      m.map (fun p => p.1) := by
  induction m with
  | nil => rfl
  | cons p rest ih =>
    by_cases hp : p.1 = k
    · simp [hp, ih]
    · simp [if_neg hp, ih]

theorem insertKV_keys_nodup (m : List (String × String)) (k v : String)
    (h : (m.map (fun p => p.1)).Nodup) :
    ((insertKV m k v).map (fun p => p.1)).Nodup := by
  unfold insertKV
  split
  case isTrue hany =>
    rw [map_overwrite_keys]
    exact h
  case isFalse hany =>
    rw [List.map_append]
    have hk : k ∉ m.map (fun p => p.1) := by
      intro hmem
      apply hany
      rw [List.any_eq_true]
      obtain ⟨p, hp, hp2⟩ := List.mem_map.mp hmem
      exact ⟨p, hp, by simp [hp2]⟩
    refine List.nodup_append.mpr ⟨h, List.nodup_singleton k, fun a ha hb => ?_⟩
    simp only [List.map_cons, List.map_nil, List.mem_singleton] at hb
    exact hk (hb ▸ ha)

theorem collectTags_keys_nodup (tags : List (String × String)) :
    ((collectTags tags).map (fun p => p.1)).Nodup := by
  unfold collectTags
  have main : ∀ m0 : List (String × String), ((m0.map (fun p => p.1)).Nodup) →
      ((tags.foldl (fun m p => insertKV m p.1 p.2) m0).map (fun p => p.1)).Nodup := by
    induction tags with
    | nil => intro m0 h; exact h
    | cons p rest ih =>
      intro m0 h
      exact ih (insertKV m0 p.1 p.2) (insertKV_keys_nodup m0 p.1 p.2 h)
  exact main [] (by simp)

theorem decodeOptNat_encode (o : Option Nat) : decodeOptNat (encodeOptNat o) = some o := by
  cases o <;> rfl

theorem decodeOptInt_encode (o : Option Int) : decodeOptInt (encodeOptInt o) = some o := by
  cases o <;> rfl

theorem decodeRational_encode (r : Rational) : decodeRational (encodeRational r) = some r := by
  cases r
  rfl

theorem decodeCodec_encode (c : Codec) : decodeCodec (encodeCodec c) = some c := by
  cases c
  rfl

theorem decodeAudio_encode (a : Audio) : decodeAudio (encodeAudio a) = some a := by
  cases a with
  | mk codec br mbr de sr ch fo fr al cl fs =>
    cases codec
    cases fs <;> rfl

theorem decodeVideo_encode (v : Video) : decodeVideo (encodeVideo v) = some v := by
  cases v with
  | mk codec br mbr de w hh fo bf ar cs cr cp ct cl re ip =>
    cases codec
    cases ar
    rfl

theorem decodeSubtitle_encode (s : Subtitle) : decodeSubtitle (encodeSubtitle s) = some s := by
  cases s with
  | mk codec =>
    cases codec
    rfl

theorem decodeContent_encode (c : Content) : decodeContent (encodeContent c) = some c := by
  cases c with
  | unknown => rfl
  | data => rfl
  | attachment => rfl
  | audio a =>
    have h : decodeContent (encodeContent (Content.audio a)) =
        (decodeAudio (encodeAudio a)).map Content.audio := rfl
    rw [h, decodeAudio_encode]
    rfl
  | video v =>
    have h : decodeContent (encodeContent (Content.video v)) =
        (decodeVideo (encodeVideo v)).map Content.video := rfl
    rw [h, decodeVideo_encode]
    rfl
  | subtitle s =>
    have h : decodeContent (encodeContent (Content.subtitle s)) =
        (decodeSubtitle (encodeSubtitle s)).map Content.subtitle := rfl
    rw [h, decodeSubtitle_encode]
    rfl

set_option maxHeartbeats 2000000 in
theorem decodeStream_encode (st : Stream) : decodeStream (encodeStream st) = some st := by
  cases st with
  | mk ix tb stt du fr di dc frr afr co =>
    cases tb
    cases frr
    cases afr
    cases stt <;> cases du <;>
      simp [encodeStream, decodeStream, encodeRational, decodeRational, encodeOptInt,
        decodeOptInt, decodeContent_encode, Option.bind]

theorem decodeStreams_encode (l : List Stream) :
    decodeStreams (l.map encodeStream) = some l := by
  induction l with
  | nil => rfl
  | cons st rest ih =>
    simp [decodeStreams, decodeStream_encode, ih, Option.bind]

theorem decodeStrs_encode (l : List String) : decodeStrs (l.map Sval.str) = some l := by
  induction l with
  | nil => rfl
  | cons s rest ih => simp [decodeStrs, ih]

theorem decodePairs_encode (l : List (String × String)) :
    decodePairs (l.map (fun p => (p.1, Sval.str p.2))) = some l := by
  induction l with
  | nil => rfl
  | cons p rest ih => simp [decodePairs, ih]

theorem decodeFormat_encode (f : Format) : decodeFormat (encodeFormat f) = some f := by
  cases f
  simp [encodeFormat, decodeFormat, decodeStrs_encode, Option.bind]

theorem decodeBest_encode (b : Best) : decodeBest (encodeBest b) = some b := by
  cases b with
  | mk a v s => cases a <;> cases v <;> cases s <;> rfl

theorem projectStream_benign (s : StreamHandle) (c : Content)
    (h : extractContent s = .ok c) : projectStream s = .ok (genericStream s c) := by
  unfold projectStream
  rw [h]
  rfl

theorem extractContent_unknown (s : StreamHandle) (h : s.medium = .unknown) :
    extractContent s = .ok .unknown := by
  simp [extractContent, h]

theorem extractContent_data (s : StreamHandle) (h : s.medium = .data) :
    extractContent s = .ok .data := by
  simp [extractContent, h]

theorem extractContent_attachment (s : StreamHandle) (h : s.medium = .attachment) :
    extractContent s = .ok .attachment := by
  simp [extractContent, h]

theorem extractContent_audio_error_iff (s : StreamHandle) (hm : s.medium = .audio) :
    (∃ e, extractContent s = .error e) ↔
      (∃ e, s.audioDecoder = .error e)
        ∨ ∃ av, s.audioDecoder = .ok av ∧ av.codec = none := by
  cases hd : s.audioDecoder with
  | error e =>
    constructor
    · intro _; exact Or.inl ⟨e, rfl⟩
    · intro _
      exact ⟨e, by simp [extractContent, hm, hd, bind, Except.bind]⟩
  | ok av =>
    cases hk : av.codec with
    | none =>
      constructor
      · intro _; exact Or.inr ⟨av, rfl, hk⟩
      · intro _
        exact ⟨Err.bug, by simp [extractContent, hm, hd, hk, okOr, bind, Except.bind]⟩
    | some cd =>
      constructor
      · rintro ⟨e, he⟩
        simp [extractContent, hm, hd, hk, okOr, bind, Except.bind] at he
      · rintro (⟨e, he⟩ | ⟨av2, hav2, hk2⟩)
        · cases he
        · cases hav2
          rw [hk] at hk2
          cases hk2

theorem extractContent_video_error_iff (s : StreamHandle) (hm : s.medium = .video) :
    (∃ e, extractContent s = .error e) ↔
      (∃ e, s.videoDecoder = .error e)
        ∨ ∃ vv, s.videoDecoder = .ok vv ∧ vv.codec = none := by
  cases hd : s.videoDecoder with
  | error e =>
    constructor
    · intro _; exact Or.inl ⟨e, rfl⟩
    · intro _
      exact ⟨e, by simp [extractContent, hm, hd, bind, Except.bind]⟩
  | ok vv =>
    cases hk : vv.codec with
    | none =>
      constructor
      · intro _; exact Or.inr ⟨vv, rfl, hk⟩
      · intro _
        exact ⟨Err.bug, by simp [extractContent, hm, hd, hk, okOr, bind, Except.bind]⟩
    | some cd =>
      constructor
      · rintro ⟨e, he⟩
        simp [extractContent, hm, hd, hk, okOr, bind, Except.bind] at he
      · rintro (⟨e, he⟩ | ⟨vv2, hvv2, hk2⟩)
        · cases he
        · cases hvv2
          rw [hk] at hk2
          cases hk2

theorem extractContent_subtitle_error_iff (s : StreamHandle) (hm : s.medium = .subtitle) :
    (∃ e, extractContent s = .error e) ↔
      (∃ e, s.subtitleDecoder = .error e)
        ∨ ∃ sv, s.subtitleDecoder = .ok sv ∧ sv.codec = none := by
  cases hd : s.subtitleDecoder with
  | error e =>
    constructor
    · intro _; exact Or.inl ⟨e, rfl⟩
    · intro _
      exact ⟨e, by simp [extractContent, hm, hd, bind, Except.bind]⟩
  | ok sv =>
    cases hk : sv.codec with
    | none =>
      constructor
      · intro _; exact Or.inr ⟨sv, rfl, hk⟩
      · intro _
        exact ⟨Err.bug, by simp [extractContent, hm, hd, hk, okOr, bind, Except.bind]⟩
    | some cd =>
      constructor
      · rintro ⟨e, he⟩
        simp [extractContent, hm, hd, hk, okOr, bind, Except.bind] at he
      · rintro (⟨e, he⟩ | ⟨sv2, hsv2, hk2⟩)
        · cases he
        · cases hsv2
          rw [hk] at hk2
          cases hk2

/-! ## Claims -/

/-- Claim C1: projection is all-or-nothing.  For every handle, if extracting
any single stream of the enumeration fails, `Metadata.new` returns an error
and no `Metadata` snapshot — in particular no partial snapshot holding the
streams processed before the failure. -/
theorem projection_all_or_nothing (input : Input) (s : StreamHandle) (e : Err)
    (hs : s ∈ input.streams) (hf : extractContent s = .error e) :
    (∃ e2, Metadata.new input = .error e2) ∧ ∀ m, Metadata.new input ≠ .ok m := by
  have hps : projectStream s = .error e := by
    unfold projectStream
    rw [hf]
    rfl
  obtain ⟨e2, h2⟩ := mapE_error_of_mem projectStream input.streams s e hs hps
  refine ⟨⟨e2, (new_error_iff input e2).mpr h2⟩, fun m hm => ?_⟩
  obtain ⟨sts, hsts, _⟩ := (new_ok_iff input m).mp hm
  rw [h2] at hsts
  cases hsts

/-- Witness for C1: a handle with one audio stream whose decoder view cannot
be opened makes the projection fail. -/
theorem projection_all_or_nothing_witness :
    (∃ e2, Metadata.new failInput = .error e2) ∧ ∀ m, Metadata.new failInput ≠ .ok m :=
  projection_all_or_nothing failInput failStream (Err.other 5) (List.Mem.head _) rfl

/-- Counterexample to claim C2 as stated: the projector performs no
validation of the collaborator's best-stream choice and raises no
`InvariantViolation`-style error.  On a handle whose collaborator reports a
best video stream with index 7 while the container enumerates no streams,
the projection succeeds with `best.video = some 7` and an empty `streams`,
so the index refers to no existing element and the mismatch is silently
accepted. -/
theorem best_unvalidated_counterexample :
    Metadata.new badInput = .ok badMeta ∧ badMeta.best.video = some 7 ∧
      badMeta.streams = [] :=
  ⟨rfl, rfl, rfl⟩

/-- Claim C2 (amended): each `best.*` field is the index reported by the
collaborator's best-stream choice, copied verbatim and without validation
(no error is raised for an index that matches no enumerated stream).
Moreover every enumerated stream — hence in particular a collaborator best
choice that is one of the enumerated streams — has a projected counterpart
carrying its index verbatim, whose content variant matches that stream's
media kind. -/
theorem best_index_copied_verbatim (input : Input) (m : Metadata)
    (h : Metadata.new input = .ok m) :
    (m.best.video = input.bestVideo.map StreamHandle.index
      ∧ m.best.audio = input.bestAudio.map StreamHandle.index
      ∧ m.best.subtitle = input.bestSubtitle.map StreamHandle.index)
    ∧ ∀ sh : StreamHandle, sh ∈ input.streams →
        ∃ j, ∃ hj : j < m.streams.length,
          (m.streams.get ⟨j, hj⟩).index = sh.index ∧
            contentKind (m.streams.get ⟨j, hj⟩).content = sh.medium := by
  obtain ⟨sts, hsts, hm⟩ := (new_ok_iff input m).mp h
  subst hm
  refine ⟨⟨rfl, rfl, rfl⟩, fun sh hsh => ?_⟩
  obtain ⟨n, hn⟩ := List.get_of_mem hsh
  have hlen : sts.length = input.streams.length := mapE_ok_length _ _ _ hsts
  have hj : n.1 < sts.length := by rw [hlen]; exact n.2
  have hp := mapE_ok_get projectStream input.streams sts hsts n.1 n.2 hj
  have hp2 : projectStream sh = .ok (sts.get ⟨n.1, hj⟩) := by
    rw [← hn]
    exact hp
  obtain ⟨c, hc, hst⟩ := projectStream_ok_elim sh (sts.get ⟨n.1, hj⟩) hp2
  refine ⟨n.1, hj, ?_, ?_⟩
  · show (sts.get ⟨n.1, hj⟩).index = sh.index
    rw [hst]
    rfl
  · show contentKind (sts.get ⟨n.1, hj⟩).content = sh.medium
    rw [hst]
    show contentKind c = sh.medium
    exact extractContent_ok_kind sh c hc

/-- Witness for C2 (amended): on a handle whose best audio choice is its
single enumerated audio stream, the projected `best.audio` equals the
collaborator-reported index. -/
theorem best_index_copied_verbatim_witness :
    goodMeta.best.audio = goodInput.bestAudio.map StreamHandle.index :=
  ((best_index_copied_verbatim goodInput goodMeta rfl).1).2.1

/-- Claim C3: on success the snapshot enumerates exactly the handle's
streams, in order — the i-th projected stream is the projection of the i-th
enumerated stream, none dropped, duplicated or reordered. -/
theorem streams_length_order_preserved (input : Input) (m : Metadata)
    (h : Metadata.new input = .ok m) :
    m.streams.length = input.streams.length
    ∧ ∀ i (hi : i < input.streams.length) (hi2 : i < m.streams.length),
        projectStream (input.streams.get ⟨i, hi⟩) = .ok (m.streams.get ⟨i, hi2⟩) := by
  obtain ⟨sts, hsts, hm⟩ := (new_ok_iff input m).mp h
  subst hm
  exact ⟨mapE_ok_length _ _ _ hsts, fun i hi hi2 => mapE_ok_get _ _ _ hsts i hi hi2⟩

/-- Witness for C3: a three-stream handle projects to three streams, and
position 1 is the projection of enumerated stream 1. -/
theorem streams_length_order_preserved_witness :
    benignMeta.streams.length = benignInput.streams.length ∧
      projectStream (benignInput.streams.get ⟨1, by decide⟩) =
        .ok (benignMeta.streams.get ⟨1, by decide⟩) :=
  ⟨(streams_length_order_preserved benignInput benignMeta rfl).1,
    (streams_length_order_preserved benignInput benignMeta rfl).2 1 (by decide) (by decide)⟩

/-- Claim C4: each projected stream's `index` is the index reported by the
handle for that stream, copied verbatim (not recomputed from the position
in the list). -/
theorem stream_index_verbatim (input : Input) (m : Metadata)
    (h : Metadata.new input = .ok m) (i : Nat) (hi : i < input.streams.length)
    (hi2 : i < m.streams.length) :
    (m.streams.get ⟨i, hi2⟩).index = (input.streams.get ⟨i, hi⟩).index := by
  obtain ⟨sts, hsts, hm⟩ := (new_ok_iff input m).mp h
  subst hm
  have hp := mapE_ok_get _ _ _ hsts i hi hi2
  obtain ⟨c, _, hst⟩ := projectStream_ok_elim _ _ hp
  rw [hst]
  rfl

/-- Witness for C4: a stream whose reported index is 5 sits at position 0
and still projects with index 5. -/
theorem stream_index_verbatim_witness :
    (idxMeta.streams.get ⟨0, by decide⟩).index =
        (idxInput.streams.get ⟨0, by decide⟩).index
      ∧ (idxMeta.streams.get ⟨0, by decide⟩).index = 5 :=
  ⟨stream_index_verbatim idxInput idxMeta rfl 0 (by decide) (by decide), by decide⟩

/-- Claim C5: the raw format-name string is split on the separator `,`,
`format.name` being the first token and `format.aliases` the remaining
tokens in order. -/
theorem format_name_split (input : Input) (m : Metadata)
    (h : Metadata.new input = .ok m) :
    m.format.name :: m.format.aliases =
      (splitComma input.formatName.toList).map List.asString := by
  obtain ⟨sts, hsts, hm⟩ := (new_ok_iff input m).mp h
  subst hm
  show (formatOf input).name :: (formatOf input).aliases = _
  unfold formatOf
  cases hsp : splitComma input.formatName.toList with
  | nil => exact absurd hsp (splitComma_ne_nil _)
  | cons t ts => simp [hsp]

/-- Witness for C5: the raw name string of `mp4Input` is
`"mp4,mov,m4a"`, and it projects to name `"mp4"` with aliases
`["mov", "m4a"]`. -/
theorem format_name_split_witness :
    mp4Meta.format.name :: mp4Meta.format.aliases =
        (splitComma mp4Input.formatName.toList).map List.asString
      ∧ mp4Meta.format.name = "mp4" ∧ mp4Meta.format.aliases = ["mov", "m4a"] :=
  ⟨format_name_split mp4Input mp4Meta rfl, rfl, rfl⟩

/-- Claim C6: per-stream extraction fails exactly on Audio, Video or
Subtitle streams whose decoder view cannot be opened or whose codec
identity cannot be resolved; Unknown, Data and Attachment streams always
project to their empty content variants, so a handle enumerating only such
streams never fails. -/
theorem per_stream_failure_characterization :
    (∀ s : StreamHandle,
      (s.medium = .unknown → projectStream s = .ok (genericStream s .unknown))
      ∧ (s.medium = .data → projectStream s = .ok (genericStream s .data))
      ∧ (s.medium = .attachment → projectStream s = .ok (genericStream s .attachment))
      ∧ ((∃ e, projectStream s = .error e) →
          s.medium = .audio ∨ s.medium = .video ∨ s.medium = .subtitle)
      ∧ (s.medium = .audio →
          ((∃ e, projectStream s = .error e) ↔
            (∃ e, s.audioDecoder = .error e)
              ∨ ∃ av, s.audioDecoder = .ok av ∧ av.codec = none))
      ∧ (s.medium = .video →
          ((∃ e, projectStream s = .error e) ↔
            (∃ e, s.videoDecoder = .error e)
              ∨ ∃ vv, s.videoDecoder = .ok vv ∧ vv.codec = none))
      ∧ (s.medium = .subtitle →
          ((∃ e, projectStream s = .error e) ↔
            (∃ e, s.subtitleDecoder = .error e)
              ∨ ∃ sv, s.subtitleDecoder = .ok sv ∧ sv.codec = none)))
    ∧ ∀ input : Input,
        (∀ s ∈ input.streams,
          s.medium = .unknown ∨ s.medium = .data ∨ s.medium = .attachment) →
        ∃ m, Metadata.new input = .ok m := by
  constructor
  · intro s
    refine ⟨fun h => projectStream_benign s _ (extractContent_unknown s h),
      fun h => projectStream_benign s _ (extractContent_data s h),
      fun h => projectStream_benign s _ (extractContent_attachment s h),
      ?_, ?_, ?_, ?_⟩
    · intro he
      cases hm : s.medium
      case unknown =>
        rw [projectStream_benign s _ (extractContent_unknown s hm)] at he
        obtain ⟨e, he⟩ := he
        cases he
      case data =>
        rw [projectStream_benign s _ (extractContent_data s hm)] at he
        obtain ⟨e, he⟩ := he
        cases he
      case attachment =>
        rw [projectStream_benign s _ (extractContent_attachment s hm)] at he
        obtain ⟨e, he⟩ := he
        cases he
      case audio => exact Or.inl rfl
      case video => exact Or.inr (Or.inl rfl)
      case subtitle => exact Or.inr (Or.inr rfl)
    · intro hm
      exact (projectStream_error_iff s).trans (extractContent_audio_error_iff s hm)
    · intro hm
      exact (projectStream_error_iff s).trans (extractContent_video_error_iff s hm)
    · intro hm
      exact (projectStream_error_iff s).trans (extractContent_subtitle_error_iff s hm)
  · intro input hall
    have hok : ∀ s ∈ input.streams, ∃ st, projectStream s = .ok st := by
      intro s hs
      rcases hall s hs with h | h | h
      · exact ⟨_, projectStream_benign s _ (extractContent_unknown s h)⟩
      · exact ⟨_, projectStream_benign s _ (extractContent_data s h)⟩
      · exact ⟨_, projectStream_benign s _ (extractContent_attachment s h)⟩
    obtain ⟨sts, hsts⟩ := mapE_ok_of_all projectStream input.streams hok
    exact ⟨_, (new_ok_iff input _).mpr ⟨sts, hsts, rfl⟩⟩

/-- Witness for C6: a handle enumerating an Unknown, a Data and an
Attachment stream projects successfully. -/
theorem per_stream_failure_characterization_witness :
    ∃ m, Metadata.new benignInput = .ok m :=
  per_stream_failure_characterization.2 benignInput (by decide)

/-- Claim C7: the snapshot's `details` binds each tag key exactly once, to
the value of the last pair with that key in the handle's tag sequence. -/
theorem details_last_value_wins (input : Input) (m : Metadata)
    (h : Metadata.new input = .ok m) :
    ((m.details.map (fun p => p.1)).Nodup)
    ∧ ∀ k, lookupKV m.details k = lastTagValue input.metadataTags k := by
  obtain ⟨sts, hsts, hm⟩ := (new_ok_iff input m).mp h
  subst hm
  exact ⟨collectTags_keys_nodup _, fun k => collectTags_lookup _ k⟩

/-- Witness for C7: the tag sequence `[("title", "A"), ("title", "B")]`
projects to a details map binding "title" to "B". -/
theorem details_last_value_wins_witness :
    lookupKV dupMeta.details "title" = lastTagValue dupInput.metadataTags "title"
      ∧ lookupKV dupMeta.details "title" = some "B" :=
  ⟨(details_last_value_wins dupInput dupMeta rfl).2 "title", by decide⟩

/-- Claim C8: serializing a snapshot to the self-describing field-tagged
value model and deserializing yields the original value, including every
`Content` variant tag and the presence or absence of every optional field
(`start_time`, `duration`, `frame_start`), absence being encoded as the
distinct absent marker and not as a sentinel. -/
theorem snapshot_roundtrip (m : Metadata) : decodeMetadata (encodeMetadata m) = some m := by
  cases m with
  | mk format best streams details =>
    simp [encodeMetadata, decodeMetadata, decodeFormat_encode, decodeBest_encode,
      decodeStreams_encode, decodePairs_encode, Option.bind]

/-- Claim C9: the projection only reads from the handle.  Threading the
handle state through every collaborator call (each being a `&self`
accessor), the handle state after the call equals the state before it, and
the handle is returned rather than consumed; the result is exactly that of
the pure projection. -/
theorem projection_readonly (input : Input) :
    Metadata.newST input = (Metadata.new input, input) := by
  unfold Metadata.newST Metadata.new formatNameQ formatDescriptionQ formatExtensionsQ
    formatMimeTypesQ bestVideoQ bestAudioQ bestSubtitleQ streamsQ metadataQ formatOf bestOf
  cases h : mapE projectStream input.streams <;>
    simp [h, bind, Except.bind, pure, Except.pure]

/-- Claim C10: splitting the raw format-name string on `,` always yields at
least one token (so the unwrap of the first token in the source never
fires), and with no comma present the name is the whole raw string and the
aliases are empty. -/
theorem split_never_empty (input : Input) :
    (∃ t ts, splitComma input.formatName.toList = t :: ts)
    ∧ (',' ∉ input.formatName.toList →
        (formatOf input).name = input.formatName ∧ (formatOf input).aliases = []) := by
  constructor
  · cases hsp : splitComma input.formatName.toList with
    | nil => exact absurd hsp (splitComma_ne_nil _)
    | cons t ts => exact ⟨t, ts, rfl⟩
  · intro hc
    have hsp := splitComma_no_comma _ hc
    constructor
    · show ((splitComma input.formatName.toList).headD []).asString = input.formatName
      rw [hsp]
      exact asString_toList input.formatName
    · show ((splitComma input.formatName.toList).drop 1).map List.asString = []
      rw [hsp]
      rfl

/-- Witness for C10: the comma-free raw name "avi" projects to name "avi"
with no aliases. -/
theorem split_never_empty_witness :
    (formatOf baseInput).name = baseInput.formatName ∧ (formatOf baseInput).aliases = [] :=
  (split_never_empty baseInput).2 (by decide)

end AvMetadata
